import Mathlib

/-!
Shallow embedding of the burnit temporal media compositor and export
pipeline (TypeScript), together with proofs about its frame selection,
loop-duration resolution, disposal-aware GIF decoding, store mutations and
export scheduling.

JavaScript numbers are modelled as rationals (`ℚ`); the one place where
NaN/Infinity matter (video metadata duration) uses an explicit `JSNum`
type, and the NaN result of `x % 0` is modelled as `Option ℚ` with `none`
for NaN, so that NaN's all-false comparison semantics are explicit.
-/

namespace Burnit

/-! ## JavaScript numeric primitives -/

/-- Truncation toward zero, the rounding used by the JavaScript `%` operator. -/
def jsTrunc (q : ℚ) : ℤ :=
  if 0 ≤ q then ⌊q⌋ else ⌈q⌉

/-- JavaScript remainder `a % b` for a nonzero divisor `b`:
`a - b * trunc (a / b)`. -/
def jsRemNZ (a b : ℚ) : ℚ :=
  a - b * jsTrunc (a / b)

/-- JavaScript `a % b` on finite operands: `none` models the NaN produced by a
zero divisor. -/
def jsRem (a b : ℚ) : Option ℚ :=
  if b = 0 then none else some (jsRemNZ a b)

/-- JavaScript `<` whose left operand may be NaN (`none`): any comparison with
NaN is false. -/
def jsLt (a : Option ℚ) (b : ℚ) : Bool :=
  match a with
  | none => false
  | some q => decide (q < b)

/-- `Math.ceil`. -/
def jsCeil (q : ℚ) : ℤ := ⌈q⌉

/-- `Math.round` (half toward positive infinity). -/
def jsRound (q : ℚ) : ℤ := ⌊q + 1 / 2⌋

theorem jsTrunc_of_nonneg {q : ℚ} (h : 0 ≤ q) : jsTrunc q = ⌊q⌋ := by
  simp [jsTrunc, h]

/-- For `0 ≤ a` and `0 < b` the JavaScript remainder is the mathematical
residue `a - b * ⌊a / b⌋`. -/
theorem jsRemNZ_eq_mod {a b : ℚ} (ha : 0 ≤ a) (hb : 0 < b) :
    jsRemNZ a b = a - b * ⌊a / b⌋ := by
  rw [jsRemNZ, jsTrunc_of_nonneg (div_nonneg ha hb.le)]

theorem mod_residue_nonneg {a b : ℚ} (ha : 0 ≤ a) (hb : 0 < b) :
    0 ≤ a - b * ⌊a / b⌋ := by
  have h1 : (⌊a / b⌋ : ℚ) ≤ a / b := Int.floor_le _
  have h2 : b * (⌊a / b⌋ : ℚ) ≤ b * (a / b) := by
    exact mul_le_mul_of_nonneg_left h1 hb.le
  have h3 : b * (a / b) = a := by field_simp
  linarith

theorem mod_residue_lt {a b : ℚ} (hb : 0 < b) :
    a - b * ⌊a / b⌋ < b := by
  have h1 : a / b < ⌊a / b⌋ + 1 := Int.lt_floor_add_one _
  have h2 : b * (a / b) < b * ((⌊a / b⌋ : ℚ) + 1) :=
    (mul_lt_mul_left hb).mpr h1
  have h3 : b * (a / b) = a := by field_simp
  nlinarith

/-- Taking the residue of a residue changes nothing. -/
theorem jsRemNZ_idem {a b : ℚ} (ha : 0 ≤ a) (hb : 0 < b) :
    jsRemNZ (a - b * ⌊a / b⌋) b = a - b * ⌊a / b⌋ := by
  set r : ℚ := a - b * ⌊a / b⌋ with hr
  have hr0 : 0 ≤ r := mod_residue_nonneg ha hb
  have hrb : r < b := mod_residue_lt hb
  have hfloor : ⌊r / b⌋ = 0 := by
    rw [Int.floor_eq_zero_iff]
    constructor
    · exact div_nonneg hr0 hb.le
    · rw [div_lt_one hb]; exact hrb
  rw [jsRemNZ_eq_mod hr0 hb, hfloor]
  push_cast
  ring

/-! ## Frame-sequence (GIF) assets and frame selection (`src/lib/gif/decode.ts`)

`GifFrame.bitmap` is an opaque host resource; only `durationMs` takes part in
frame selection, so the embedding keeps just that field. -/

structure GifFrame where
  durationMs : ℚ
deriving DecidableEq, Repr

structure GifAsset where
  frames : List GifFrame
  totalDurationMs : ℚ
deriving DecidableEq, Repr

/-- The accumulation loop shared by `getFrameAtTime` and `getFrameIndexAtTime`:
starting from running sum `acc` and index `i`, return the index of the first
frame whose cumulative duration exceeds `loopTime` (`none` when the loop falls
through). A NaN `loopTime` (`none`) never satisfies the comparison. -/
def frameIndexScan (loopTime : Option ℚ) : List GifFrame → ℚ → ℕ → Option ℕ
  | [], _, _ => none
  | f :: rest, acc, i =>
    let acc2 := acc + f.durationMs
    if jsLt loopTime acc2 then some i else frameIndexScan loopTime rest acc2 (i + 1)

/-- `getFrameIndexAtTime` (decode.ts): returns 0 on an empty frame list, else
scans cumulative durations against `timeMs % totalDurationMs`, falling back to
the last index when the loop completes without a hit. -/
def getFrameIndexAtTime (gifAsset : GifAsset) (timeMs : ℚ) : ℕ :=
  if gifAsset.frames.isEmpty then 0
  else
    match frameIndexScan (jsRem timeMs gifAsset.totalDurationMs) gifAsset.frames 0 0 with
    | some i => i
    | none => gifAsset.frames.length - 1

/-- `getFrameAtTime` (decode.ts): throws (`Except.error`) on an empty frame
list, else performs the same scan and falls back to the last frame. -/
def getFrameAtTime (gifAsset : GifAsset) (timeMs : ℚ) : Except String GifFrame :=
  match h : gifAsset.frames with
  | [] => .error "No frames in GIF asset"
  | f :: fs =>
    match frameIndexScan (jsRem timeMs gifAsset.totalDurationMs) (f :: fs) 0 0 with
    | some i => .ok ((f :: fs).getD i f)
    | none => .ok ((f :: fs).getLast (by simp))

/-- The frame chosen by `drawGifAsset` (canvas/draw.ts): `currentFrame` is
initialised to `frames[0]`, so when the cumulative scan never fires the first
frame is drawn; with no frames nothing is drawn (`none`). -/
def drawGifFrameChoice (asset : GifAsset) (currentTimeMs : ℚ) : Option GifFrame :=
  match asset.frames with
  | [] => none
  | f :: fs =>
    match frameIndexScan (jsRem currentTimeMs asset.totalDurationMs) (f :: fs) 0 0 with
    | some i => some ((f :: fs).getD i f)
    | none => some f

/-- With a NaN loop time the scan's comparison is false at every frame. -/
theorem frameIndexScan_none (frames : List GifFrame) :
    ∀ (a : ℚ) (i : ℕ), frameIndexScan none frames a i = none := by
  induction frames with
  | nil => intro a i; rfl
  | cons f rest ih =>
    intro a i
    simpa [frameIndexScan, jsLt] using ih (a + f.durationMs) (i + 1)

/-! ## Claims C10, C4, C5: frame selection -/

/-- C10: on a frame-sequence asset with an empty frame list, `getFrameAtTime`
throws ("No frames in GIF asset") while `getFrameIndexAtTime` returns 0 without
error — the two public frame-selection operations disagree on this edge case. -/
theorem c10_empty_frames_disagree (totalDurationMs timeMs : ℚ) :
    getFrameAtTime ⟨[], totalDurationMs⟩ timeMs = .error "No frames in GIF asset"
    ∧ getFrameIndexAtTime ⟨[], totalDurationMs⟩ timeMs = 0 :=
  ⟨rfl, rfl⟩

def c4Asset : GifAsset := ⟨[⟨0⟩, ⟨0⟩], 0⟩

/-- C4 counterexample: on a two-frame asset with `totalDurationMs = 0`,
`getFrameIndexAtTime` selects index 1 (the last index), not index 0 as the
claim states. -/
theorem c4_counterexample : getFrameIndexAtTime c4Asset 0 ≠ 0 := by decide

/-- C4 (amended): with a non-empty frame list and `totalDurationMs = 0`, frame
selection does not fault — `timeMs % 0` is NaN, every comparison against it is
false — but the fallbacks differ: `getFrameIndexAtTime` returns the last index
`frames.length - 1` and `getFrameAtTime` the last frame, while `drawGifAsset`
keeps its initial `frames[0]` and draws frame 0. -/
theorem c4_zero_duration_fallback (gifAsset : GifAsset) (timeMs : ℚ)
    (hne : gifAsset.frames ≠ []) (h0 : gifAsset.totalDurationMs = 0) :
    getFrameIndexAtTime gifAsset timeMs = gifAsset.frames.length - 1
    ∧ getFrameAtTime gifAsset timeMs = .ok (gifAsset.frames.getLast hne)
    ∧ drawGifFrameChoice gifAsset timeMs = some (gifAsset.frames.head hne) := by
  obtain ⟨frames, total⟩ := gifAsset
  simp only at h0 hne
  subst h0
  have hnan : jsRem timeMs 0 = none := by rw [jsRem, if_pos rfl]
  match frames, hne with
  | f :: fs, _ =>
    refine ⟨?_, ?_, ?_⟩
    · simp [getFrameIndexAtTime, hnan, frameIndexScan_none]
    · simp [getFrameAtTime, hnan, frameIndexScan_none]
    · simp [drawGifFrameChoice, hnan, frameIndexScan_none]

theorem c4AssetFramesNe : c4Asset.frames ≠ [] := by decide

/-- Witness for C4's amended theorem at the concrete two-frame asset. -/
theorem c4_witness :
    c4Asset.totalDurationMs = 0
    ∧ (getFrameIndexAtTime c4Asset 5 = c4Asset.frames.length - 1
        ∧ getFrameAtTime c4Asset 5 = .ok (c4Asset.frames.getLast c4AssetFramesNe)
        ∧ drawGifFrameChoice c4Asset 5 = some (c4Asset.frames.head c4AssetFramesNe)) :=
  ⟨rfl, c4_zero_duration_fallback c4Asset 5 c4AssetFramesNe rfl⟩

/-- C5: for a frame-sequence asset with positive `totalDurationMs` and
`timeMs ≥ 0`, the selected frame index at `timeMs` equals the selected frame
index at `timeMs mod totalDurationMs` (the residue `timeMs - T * ⌊timeMs/T⌋`). -/
theorem c5_frame_index_loop_idempotent (gifAsset : GifAsset) (timeMs : ℚ)
    (hpos : 0 < gifAsset.totalDurationMs) (ht : 0 ≤ timeMs) :
    getFrameIndexAtTime gifAsset timeMs
      = getFrameIndexAtTime gifAsset
          (timeMs - gifAsset.totalDurationMs * ⌊timeMs / gifAsset.totalDurationMs⌋) := by
  have h1 : jsRem timeMs gifAsset.totalDurationMs
      = some (timeMs - gifAsset.totalDurationMs * ⌊timeMs / gifAsset.totalDurationMs⌋) := by
    rw [jsRem, if_neg (ne_of_gt hpos), jsRemNZ_eq_mod ht hpos]
  have h2 : jsRem (timeMs - gifAsset.totalDurationMs * ⌊timeMs / gifAsset.totalDurationMs⌋)
      gifAsset.totalDurationMs
      = some (timeMs - gifAsset.totalDurationMs * ⌊timeMs / gifAsset.totalDurationMs⌋) := by
    rw [jsRem, if_neg (ne_of_gt hpos), jsRemNZ_idem ht hpos]
  rw [getFrameIndexAtTime, getFrameIndexAtTime, h1, h2]

def c5Asset : GifAsset := ⟨[⟨100⟩, ⟨100⟩, ⟨100⟩], 300⟩

/-- Witness for C5 at the spec's example: three 100ms frames, `t = 350`
(which wraps to 50). -/
theorem c5_witness :
    (0 : ℚ) < c5Asset.totalDurationMs ∧ (0 : ℚ) ≤ 350
    ∧ getFrameIndexAtTime c5Asset 350
        = getFrameIndexAtTime c5Asset
            (350 - c5Asset.totalDurationMs * ⌊(350 : ℚ) / c5Asset.totalDurationMs⌋) :=
  ⟨by norm_num [c5Asset], by norm_num,
    c5_frame_index_loop_idempotent c5Asset 350 (by norm_num [c5Asset]) (by norm_num)⟩

/-! ## Project data model (`src/types.ts`)

`blendMode` (only value: "normal") and the `createdAt`/`updatedAt` wall-clock
strings carry no information relevant to the claims and are left out;
`ImageBitmap`/`HTMLVideoElement` handles are opaque host resources. -/

structure LayerTransform where
  x : ℚ
  y : ℚ
  scaleX : ℚ
  scaleY : ℚ
  rotationDeg : ℚ
  opacity : ℚ
deriving DecidableEq, Repr

structure Layer where
  id : String
  assetId : String
  name : String
  visible : Bool
  locked : Bool
  transform : LayerTransform
deriving DecidableEq, Repr

structure ImageAssetInfo where
  id : String
  name : String
  width : ℚ
  height : ℚ
deriving DecidableEq, Repr

structure GifAssetInfo where
  id : String
  name : String
  width : ℚ
  height : ℚ
  data : GifAsset
deriving DecidableEq, Repr

structure VideoAssetInfo where
  id : String
  name : String
  width : ℚ
  height : ℚ
  durationMs : ℚ
deriving DecidableEq, Repr

inductive Asset where
  | image (a : ImageAssetInfo)
  | gif (a : GifAssetInfo)
  | video (a : VideoAssetInfo)
deriving DecidableEq, Repr

inductive LoopDurationSetting where
  | auto
  | ms (value : ℚ)
deriving DecidableEq, Repr

inductive Background where
  | transparent
  | color (c : String)
deriving DecidableEq, Repr

structure CompositionSettings where
  width : ℚ
  height : ℚ
  fps : ℚ
  loopDurationMs : LoopDurationSetting
  background : Background
deriving DecidableEq, Repr

/-- `Record<UUID, Asset>` as an insertion-ordered association list with
distinct keys (`Object.values` iterates in insertion order). -/
structure Project where
  id : String
  name : String
  assets : List (String × Asset)
  layers : List Layer
  settings : CompositionSettings
deriving DecidableEq, Repr

/-- `project.assets[assetId]` — `none` models JS `undefined`. -/
def lookupAsset (assets : List (String × Asset)) (assetId : String) : Option Asset :=
  (assets.find? (fun e => e.1 == assetId)).map (fun e => e.2)

/-- `Math.max` on two finite numbers. -/
def jsMax (a b : ℚ) : ℚ := if a ≤ b then b else a

/-! ## Claim C1: loop-duration resolution for export
(`ExportService.calculateLoopDuration`, src/lib/export.ts, vs the identical
recomputation in `Timeline.totalDuration`) -/

/-- `ExportService.calculateLoopDuration`: an explicit setting wins; under
`'auto'` the fold starts from the 5000ms default and folds in the duration of
every animated asset referenced by a visible layer. -/
def calculateLoopDuration (project : Project) : ℚ :=
  match project.settings.loopDurationMs with
  | .ms value => value
  | .auto =>
    project.layers.foldl
      (fun maxDuration layer =>
        match lookupAsset project.assets layer.assetId with
        | none => maxDuration
        | some asset =>
          if layer.visible = false then maxDuration
          else
            match asset with
            | .gif g => jsMax maxDuration g.data.totalDurationMs
            | .video v => jsMax maxDuration v.durationMs
            | .image _ => maxDuration)
      5000

/-- The durations of the animated (gif/video) assets of the asset table, in
insertion order (`Object.values(...).filter(...)` then `.map(...)`). -/
def animatedAssetDurations (assets : List (String × Asset)) : List ℚ :=
  (assets.filter (fun e =>
    match e.2 with
    | .gif _ => true
    | .video _ => true
    | .image _ => false)).map
    (fun e =>
      match e.2 with
      | .gif g => g.data.totalDurationMs
      | .video v => v.durationMs
      | .image _ => 0)

/-- `Timeline.totalDuration` (Timeline component): 5000ms with no project; an
explicit setting wins; under `'auto'`, 5000ms when no animated asset exists,
else the maximum duration over all animated assets in the asset table. -/
def timelineTotalDuration (currentProject : Option Project) : ℚ :=
  match currentProject with
  | none => 5000
  | some project =>
    match project.settings.loopDurationMs with
    | .ms value => value
    | .auto =>
      match animatedAssetDurations project.assets with
      | [] => 5000
      | d :: ds => ds.foldl jsMax d

def c1DefaultTransform : LayerTransform := ⟨0, 0, 1, 1, 0, 1⟩

def c1Project : Project :=
  { id := "p1"
    name := "demo"
    assets :=
      [("a1", .video ⟨"a1", "clip.webm", 640, 480, 4000⟩),
       ("a2", .gif ⟨"a2", "anim.gif", 320, 240, ⟨[⟨1250⟩, ⟨1250⟩], 2500⟩⟩)]
    layers :=
      [⟨"l1", "a1", "clip.webm", true, false, c1DefaultTransform⟩,
       ⟨"l2", "a2", "anim.gif", true, false, c1DefaultTransform⟩]
    settings := ⟨1920, 1080, 30, .auto, .transparent⟩ }

/-- C1: on the spec's example — `loopDurationMs = 'auto'`, one video asset of
4000ms and one frame-sequence asset of 2500ms, both on visible layers — the
export-side `calculateLoopDuration` returns 5000 (its 5000ms fallback is the
fold's initial accumulator and so acts as a floor), while the Timeline's
recomputation returns 4000 as the claim and spec state. -/
theorem c1_loop_duration_divergence :
    calculateLoopDuration c1Project = 5000
    ∧ timelineTotalDuration (some c1Project) = 4000 := by
  constructor <;> rfl

/-! ## Claim C9: `removeAsset` (state store) -/

/-- `removeAsset`: destructuring `{ [assetId]: removed, ...remainingAssets }`
drops the asset-table entry, and the layer list is filtered to the layers not
referencing the removed asset. (The store also prunes dangling entries from
`canvas.selectedLayerIds`, which is canvas state, not project state.) -/
def removeAsset (project : Project) (assetId : String) : Project :=
  { project with
    assets := project.assets.filter (fun e => e.1 != assetId)
    layers := project.layers.filter (fun layer => layer.assetId != assetId) }

theorem lookup_filter_ne_self (assets : List (String × Asset)) (assetId : String) :
    lookupAsset (assets.filter (fun e => e.1 != assetId)) assetId = none := by
  have hfind : (assets.filter (fun e => e.1 != assetId)).find?
      (fun e => e.1 == assetId) = none := by
    rw [List.find?_eq_none]
    intro x hx
    have h2 := (List.mem_filter.mp hx).2
    simp only [bne_iff_ne, ne_eq] at h2
    simp [h2]
  rw [lookupAsset, hfind]
  rfl

theorem find_filter_ne_other (assets : List (String × Asset)) (assetId other : String)
    (hother : other ≠ assetId) :
    (assets.filter (fun e => e.1 != assetId)).find? (fun e => e.1 == other)
      = assets.find? (fun e => e.1 == other) := by
  induction assets with
  | nil => rfl
  | cons e rest ih =>
    rw [List.filter_cons]
    by_cases h1 : e.1 = assetId
    · have hb : (e.1 != assetId) = false := by simp [h1]
      have ho : ¬ ((e.1 == other) = true) := by
        simp only [beq_iff_eq, h1]
        exact fun hc => hother hc.symm
      have hskip : List.find? (fun x => x.1 == other) (e :: rest)
          = List.find? (fun x => x.1 == other) rest :=
        List.find?_cons_of_neg rest ho
      rw [hb]
      simp only [Bool.false_eq_true, if_false]
      rw [ih, hskip]
    · have hb : (e.1 != assetId) = true := by simp [h1]
      rw [hb]
      simp only [if_true]
      by_cases h2 : e.1 = other
      · have hhit : ∀ l : List (String × Asset),
            List.find? (fun x => x.1 == other) (e :: l) = some e :=
          fun l => List.find?_cons_of_pos l (by simp [h2])
        rw [hhit, hhit]
      · have hskip : ∀ l : List (String × Asset),
            List.find? (fun x => x.1 == other) (e :: l)
              = List.find? (fun x => x.1 == other) l :=
          fun l => List.find?_cons_of_neg l (by simp [h2])
        rw [hskip, hskip, ih]

theorem lookup_filter_ne_other (assets : List (String × Asset)) (assetId other : String)
    (hother : other ≠ assetId) :
    lookupAsset (assets.filter (fun e => e.1 != assetId)) other
      = lookupAsset assets other := by
  rw [lookupAsset, lookupAsset, find_filter_ne_other assets assetId other hother]

/-- C9: `removeAsset assetId` removes the asset-table entry for `assetId`,
removes exactly the layers referencing it (no dangling layer survives), keeps
every other asset lookup and every other layer — in their original relative
order, being a filtering — and leaves the composition settings unchanged. -/
theorem c9_removeAsset_spec (project : Project) (assetId : String) :
    lookupAsset (removeAsset project assetId).assets assetId = none
    ∧ (∀ other, other ≠ assetId →
        lookupAsset (removeAsset project assetId).assets other
          = lookupAsset project.assets other)
    ∧ (∀ layer ∈ (removeAsset project assetId).layers, layer.assetId ≠ assetId)
    ∧ (removeAsset project assetId).layers.Sublist project.layers
    ∧ (∀ layer ∈ project.layers, layer.assetId ≠ assetId →
        layer ∈ (removeAsset project assetId).layers)
    ∧ (removeAsset project assetId).settings = project.settings := by
  refine ⟨lookup_filter_ne_self project.assets assetId,
    fun other h => lookup_filter_ne_other project.assets assetId other h,
    ?_, ?_, ?_, rfl⟩
  · intro layer hmem
    have := (List.mem_filter.mp hmem).2
    simpa using this
  · exact List.filter_sublist _
  · intro layer hmem hne
    exact List.mem_filter.mpr ⟨hmem, by simpa using hne⟩

/-- Witness for C9 on the concrete two-asset, two-layer project: removing
asset "a1" clears its entry, keeps the lookup of "a2", keeps the layer
referencing "a2", and keeps the settings. -/
theorem c9_witness :
    lookupAsset (removeAsset c1Project "a1").assets "a1" = none
    ∧ lookupAsset (removeAsset c1Project "a1").assets "a2"
        = lookupAsset c1Project.assets "a2"
    ∧ (⟨"l2", "a2", "anim.gif", true, false, c1DefaultTransform⟩ : Layer)
        ∈ (removeAsset c1Project "a1").layers
    ∧ (removeAsset c1Project "a1").settings = c1Project.settings := by
  have h := c9_removeAsset_spec c1Project "a1"
  exact ⟨h.1, h.2.1 "a2" (by decide),
    h.2.2.2.2.1 ⟨"l2", "a2", "anim.gif", true, false, c1DefaultTransform⟩
      (by decide) (by decide),
    h.2.2.2.2.2⟩

/-! ## Claim C2: `updateLayerTransform` and opacity -/

/-- A `Partial<LayerTransform>`: absent fields are `none`. -/
structure LayerTransformPatch where
  x : Option ℚ := none
  y : Option ℚ := none
  scaleX : Option ℚ := none
  scaleY : Option ℚ := none
  rotationDeg : Option ℚ := none
  opacity : Option ℚ := none
deriving DecidableEq, Repr

/-- The object spread `{ ...layer.transform, ...transform }`: a present patch
field replaces the stored one, verbatim. -/
def LayerTransform.merge (t : LayerTransform) (p : LayerTransformPatch) : LayerTransform :=
  { x := p.x.getD t.x
    y := p.y.getD t.y
    scaleX := p.scaleX.getD t.scaleX
    scaleY := p.scaleY.getD t.scaleY
    rotationDeg := p.rotationDeg.getD t.rotationDeg
    opacity := p.opacity.getD t.opacity }

/-- `updateLayerTransform` (state store): maps over the layer list, spreading
the partial transform over the matching layer's transform. No field is
clamped or otherwise adjusted. -/
def updateLayerTransform (project : Project) (layerId : String)
    (transform : LayerTransformPatch) : Project :=
  { project with
    layers := project.layers.map (fun layer =>
      if layer.id == layerId
      then { layer with transform := layer.transform.merge transform }
      else layer) }

def c2Project : Project :=
  { id := "p2"
    name := "demo2"
    assets := [("a1", .image ⟨"a1", "img.png", 64, 64⟩)]
    layers := [⟨"l1", "a1", "img.png", true, false, c1DefaultTransform⟩]
    settings := ⟨1920, 1080, 30, .auto, .transparent⟩ }

def c2Patch : LayerTransformPatch := { opacity := some 2 }

/-- C2 counterexample: passing opacity 2 (outside [0,1]) to
`updateLayerTransform` stores 2 unchanged, so not every stored layer opacity
lies in [0,1]. -/
theorem c2_counterexample :
    ¬ (∀ layer ∈ (updateLayerTransform c2Project "l1" c2Patch).layers,
        0 ≤ layer.transform.opacity ∧ layer.transform.opacity ≤ 1) := by
  intro h
  have hmem : (⟨"l1", "a1", "img.png", true, false,
      { c1DefaultTransform with opacity := 2 }⟩ : Layer)
      ∈ (updateLayerTransform c2Project "l1" c2Patch).layers := by decide
  have := (h _ hmem).2
  norm_num [c1DefaultTransform] at this

/-- C2 (amended): `updateLayerTransform` stores the supplied opacity verbatim
— the object spread performs no clamping, so out-of-range inputs such as 2 are
stored as-is (the [0,1] range is imposed only by the UI slider's min/max
attributes); every layer whose id matches carries exactly the patched
opacity afterwards. -/
theorem c2_opacity_stored_verbatim (project : Project) (layerId : String)
    (transform : LayerTransformPatch) (o : ℚ) (ho : transform.opacity = some o) :
    ∀ layer ∈ (updateLayerTransform project layerId transform).layers,
      layer.id = layerId → layer.transform.opacity = o := by
  intro layer hmem hid
  rw [updateLayerTransform] at hmem
  simp only [List.mem_map] at hmem
  obtain ⟨orig, _, horig⟩ := hmem
  by_cases hcase : orig.id = layerId
  · rw [if_pos (by simpa using hcase)] at horig
    rw [← horig]
    simp [LayerTransform.merge, ho]
  · rw [if_neg (by simpa using hcase)] at horig
    rw [← horig] at hid
    exact absurd hid hcase

/-- Witness for C2's amended theorem: opacity input 2 on the concrete
one-layer project is stored as 2. -/
theorem c2_witness :
    c2Patch.opacity = some 2
    ∧ (⟨"l1", "a1", "img.png", true, false,
        { c1DefaultTransform with opacity := 2 }⟩ : Layer)
        ∈ (updateLayerTransform c2Project "l1" c2Patch).layers
    ∧ (⟨"l1", "a1", "img.png", true, false,
        { c1DefaultTransform with opacity := 2 }⟩ : Layer).transform.opacity = 2 :=
  ⟨rfl, by decide,
    c2_opacity_stored_verbatim c2Project "l1" c2Patch 2 rfl _ (by decide) rfl⟩

/-! ## Claim C7: `createVideoAsset` (media asset normalizer)

The host `<video>` element reports `duration` as a JS double that may be NaN
or Infinity, so that one value is modelled by an explicit `JSNum`. -/

inductive JSNum where
  | finite (value : ℚ)
  | nan
  | posInf
  | negInf
deriving DecidableEq, Repr

/-- `isFinite`. -/
def JSNum.isFinite : JSNum → Bool
  | .finite _ => true
  | _ => false

/-- What the video element reports on `loadedmetadata`. -/
structure VideoMetadata where
  videoWidth : ℚ
  videoHeight : ℚ
  duration : JSNum
deriving DecidableEq, Repr

/-- Loading either fires `loadedmetadata` or `error`. -/
inductive VideoLoadOutcome where
  | metadata (m : VideoMetadata)
  | loadError
deriving DecidableEq, Repr

/-- The constructed `VideoAsset` (the blob URL, generated id and pooled
element handle are opaque host resources). -/
structure VideoAssetResult where
  name : String
  width : ℚ
  height : ℚ
  durationMs : ℚ
deriving DecidableEq, Repr

/-- The `loadedmetadata` handler of `createVideoAsset`: the guard
`!isFinite(video.duration) || video.duration <= 0` rejects with
"Invalid video duration" — split here by `JSNum` constructor: NaN and
±Infinity fail `isFinite`, a finite value ≤ 0 fails the second test —
otherwise the handler resolves with `durationMs = video.duration * 1000`. -/
def createVideoAssetOnMetadata (fileName : String) (m : VideoMetadata) :
    Except String VideoAssetResult :=
  match m.duration with
  | .nan => .error "Invalid video duration"
  | .posInf => .error "Invalid video duration"
  | .negInf => .error "Invalid video duration"
  | .finite v =>
    if v ≤ 0 then .error "Invalid video duration"
    else .ok ⟨fileName, m.videoWidth, m.videoHeight, v * 1000⟩

/-- `createVideoAsset`: reject when WebM playback is unsupported or the video
element fires `error`; else the metadata handler decides. -/
def createVideoAsset (supportsWebM : Bool) (fileName : String)
    (outcome : VideoLoadOutcome) : Except String VideoAssetResult :=
  if supportsWebM = false then
    .error "WebM video format is not supported in this browser"
  else
    match outcome with
    | .loadError => .error "Failed to load video"
    | .metadata m => createVideoAssetOnMetadata fileName m

/-- C7: a video source whose reported duration is non-finite or ≤ 0 is
rejected with an error and no `VideoAsset` is constructed; conversely every
constructed `VideoAsset` has (finite, by type) `durationMs > 0`. -/
theorem c7_video_duration_guard :
    (∀ (supportsWebM : Bool) (fileName : String) (outcome : VideoLoadOutcome)
        (asset : VideoAssetResult),
      createVideoAsset supportsWebM fileName outcome = .ok asset →
        0 < asset.durationMs)
    ∧ (∀ (supportsWebM : Bool) (fileName : String) (m : VideoMetadata),
        (m.duration.isFinite = false
          ∨ (∃ v : ℚ, m.duration = .finite v ∧ v ≤ 0)) →
        ∃ e, createVideoAsset supportsWebM fileName (.metadata m) = .error e) := by
  constructor
  · intro supportsWebM fileName outcome asset h
    rw [createVideoAsset.eq_def] at h
    by_cases hs : supportsWebM = false
    · rw [if_pos hs] at h
      simp at h
    · rw [if_neg hs] at h
      cases outcome with
      | loadError => simp at h
      | metadata m =>
        replace h : createVideoAssetOnMetadata fileName m = Except.ok asset := h
        rw [createVideoAssetOnMetadata.eq_def] at h
        cases hdm : m.duration with
        | nan => rw [hdm] at h; simp at h
        | posInf => rw [hdm] at h; simp at h
        | negInf => rw [hdm] at h; simp at h
        | finite v =>
          rw [hdm] at h
          replace h : (if v ≤ 0 then
                (Except.error "Invalid video duration" : Except String VideoAssetResult)
              else Except.ok ⟨fileName, m.videoWidth, m.videoHeight, v * 1000⟩)
              = Except.ok asset := h
          by_cases hv : v ≤ 0
          · rw [if_pos hv] at h
            simp at h
          · rw [if_neg hv] at h
            injection h with h2
            have hvpos : (0 : ℚ) < v := lt_of_not_le hv
            rw [← h2]
            exact mul_pos hvpos (by norm_num)
  · intro supportsWebM fileName m hbad
    rw [createVideoAsset]
    by_cases hs : supportsWebM = false
    · exact ⟨_, by rw [if_pos hs]⟩
    · rw [if_neg hs]
      refine ⟨"Invalid video duration", ?_⟩
      show createVideoAssetOnMetadata fileName m = _
      rw [createVideoAssetOnMetadata.eq_def]
      cases hdm : m.duration with
      | nan => rfl
      | posInf => rfl
      | negInf => rfl
      | finite v =>
        rcases hbad with hfin | ⟨v', hv', hle⟩
        · rw [hdm] at hfin
          exact absurd hfin (by simp [JSNum.isFinite])
        · rw [hdm] at hv'
          injection hv' with hv2
          subst hv2
          simp [hle]

def c7GoodMeta : VideoMetadata := ⟨640, 480, .finite 4⟩

def c7Asset : VideoAssetResult := ⟨"clip.webm", 640, 480, 4 * 1000⟩

/-- Witness for C7: a 4-second video yields an asset with positive
`durationMs`, and a NaN-duration source is rejected. -/
theorem c7_witness :
    createVideoAsset true "clip.webm" (.metadata c7GoodMeta) = .ok c7Asset
    ∧ 0 < c7Asset.durationMs
    ∧ (∃ e, createVideoAsset true "clip.webm" (.metadata ⟨640, 480, .nan⟩)
        = .error e) :=
  ⟨rfl,
    c7_video_duration_guard.1 true "clip.webm" (.metadata c7GoodMeta) c7Asset rfl,
    c7_video_duration_guard.2 true "clip.webm" ⟨640, 480, .nan⟩ (Or.inl rfl)⟩

/-! ## Claim C8: per-layer failure isolation in compositing
(`drawLayer`, src/lib/canvas/draw.ts, and the layer loop of `exportGif`)

The canvas context is modelled as the trace of drawing events it receives.
The inner asset draw (`drawImage`, video seek, ...) can throw in the host;
that possibility is abstracted by an `attempt` oracle giving, per layer,
either success or the thrown message. -/

inductive DrawEvent where
  | save
  | transformApplied (t : LayerTransform)
  | alphaSet (opacity : ℚ)
  | assetDrawn (layerId : String) (timeMs : ℚ)
  | warnLogged (layerId : String) (message : String)
  | restore
deriving DecidableEq, Repr

/-- `drawLayer`: skip when invisible or opacity ≤ 0; else save, transform, set
alpha, try the asset draw — a throw is caught and logged inside this layer's
draw — and restore. -/
def drawLayer (attempt : Layer → Except String Unit) (layer : Layer)
    (currentTimeMs : ℚ) : List DrawEvent :=
  if layer.visible = false ∨ layer.transform.opacity ≤ 0 then []
  else
    [DrawEvent.save, DrawEvent.transformApplied layer.transform,
      DrawEvent.alphaSet layer.transform.opacity]
    ++ (match attempt layer with
        | .ok _ => [DrawEvent.assetDrawn layer.id currentTimeMs]
        | .error e => [DrawEvent.warnLogged layer.id e])
    ++ [DrawEvent.restore]

/-- The per-frame layer loop shared by `exportGif` and the export renderers:
`for (const layer of layers) if (assets[layer.assetId] && layer.visible)
drawLayer(...)`. -/
def compositeLayers (attempt : Layer → Except String Unit)
    (assets : List (String × Asset)) (currentTimeMs : ℚ) :
    List Layer → List DrawEvent
  | [] => []
  | layer :: rest =>
    (match lookupAsset assets layer.assetId with
     | some _ => if layer.visible = true then drawLayer attempt layer currentTimeMs else []
     | none => [])
    ++ compositeLayers attempt assets currentTimeMs rest

theorem compositeLayers_append (attempt : Layer → Except String Unit)
    (assets : List (String × Asset)) (currentTimeMs : ℚ)
    (l1 l2 : List Layer) :
    compositeLayers attempt assets currentTimeMs (l1 ++ l2)
      = compositeLayers attempt assets currentTimeMs l1
        ++ compositeLayers attempt assets currentTimeMs l2 := by
  induction l1 with
  | nil => rfl
  | cons layer rest ih =>
    simp only [List.cons_append, compositeLayers, List.append_eq, ih, List.append_assoc]

/-- C8: a drawing/seek failure in one layer is caught and logged within that
layer's draw — it contributes a save/transform/alpha/log/restore block instead
of propagating — and every other layer of the frame, before and after it, is
composited exactly as it would have been. -/
theorem c8_layer_failure_isolated (attempt : Layer → Except String Unit)
    (assets : List (String × Asset)) (currentTimeMs : ℚ)
    (pre post : List Layer) (layer : Layer) (e : String)
    (hfail : attempt layer = .error e)
    (hvis : layer.visible = true)
    (hopacity : 0 < layer.transform.opacity)
    (hasset : (lookupAsset assets layer.assetId).isSome = true) :
    compositeLayers attempt assets currentTimeMs (pre ++ layer :: post)
      = compositeLayers attempt assets currentTimeMs pre
        ++ [DrawEvent.save, DrawEvent.transformApplied layer.transform,
            DrawEvent.alphaSet layer.transform.opacity,
            DrawEvent.warnLogged layer.id e, DrawEvent.restore]
        ++ compositeLayers attempt assets currentTimeMs post := by
  rw [compositeLayers_append]
  obtain ⟨a, ha⟩ := Option.isSome_iff_exists.mp hasset
  have hskip : ¬ (layer.visible = false ∨ layer.transform.opacity ≤ 0) := by
    push_neg
    exact ⟨by simp [hvis], hopacity⟩
  simp only [compositeLayers, ha, hvis, if_true, List.append_assoc]
  rw [drawLayer, if_neg hskip, hfail]
  simp

def c8LayerA : Layer := ⟨"la", "a1", "A", true, false, c1DefaultTransform⟩
def c8LayerB : Layer := ⟨"lb", "a2", "B", true, false, c1DefaultTransform⟩
def c8LayerC : Layer := ⟨"lc", "a1", "C", true, false, c1DefaultTransform⟩

/-- An oracle under which drawing layer "lb" throws and the others draw. -/
def c8Attempt : Layer → Except String Unit := fun layer =>
  if layer.id == "lb" then .error "seek failed" else .ok ()

/-- Witness for C8 on three concrete layers where the middle one fails: its
failure is logged in place and both neighbours are composited. -/
theorem c8_witness :
    c8Attempt c8LayerB = .error "seek failed"
    ∧ compositeLayers c8Attempt c1Project.assets 0 ([c8LayerA] ++ c8LayerB :: [c8LayerC])
        = compositeLayers c8Attempt c1Project.assets 0 [c8LayerA]
          ++ [DrawEvent.save, DrawEvent.transformApplied c8LayerB.transform,
              DrawEvent.alphaSet c8LayerB.transform.opacity,
              DrawEvent.warnLogged c8LayerB.id "seek failed", DrawEvent.restore]
          ++ compositeLayers c8Attempt c1Project.assets 0 [c8LayerC] :=
  ⟨rfl,
    c8_layer_failure_isolated c8Attempt c1Project.assets 0 [c8LayerA] [c8LayerC]
      c8LayerB "seek failed" rfl rfl (by norm_num [c8LayerB, c1DefaultTransform])
      (by decide)⟩

/-! ## Claim C6: deterministic frame schedule of the animation export
(`exportGif`, src/lib/gif/encode.ts)

`exportGif` is a pure function of its arguments — the embedding takes no
clock — producing, per encoded frame, the timestamp it was composited at, the
per-frame delay handed to the encoder, and the compositing trace. -/

structure GifExportOptions where
  width : ℚ
  height : ℚ
  fps : ℚ
  quality : ℚ
  loopDurationMs : ℚ
  background : Background
deriving DecidableEq, Repr

structure EncodedFrame where
  timeMs : ℚ
  delay : ℚ
  events : List DrawEvent
deriving DecidableEq, Repr

/-- `exportGif`: `frameCount = Math.ceil(loopDurationMs / 1000 * fps)`,
`frameDuration = Math.round(1000 / fps)`, and for
`frame = 0 .. frameCount - 1` the canvas is composited at
`currentTime = (frame / frameCount) * loopDurationMs` and written with delay
`frameDuration`. -/
def exportGif (attempt : Layer → Except String Unit) (layers : List Layer)
    (assets : List (String × Asset)) (options : GifExportOptions) :
    List EncodedFrame :=
  (List.range (jsCeil (options.loopDurationMs / 1000 * options.fps)).toNat).map
    (fun (frame : ℕ) =>
      { timeMs := (frame : ℚ)
          / ((jsCeil (options.loopDurationMs / 1000 * options.fps) : ℤ) : ℚ)
          * options.loopDurationMs
        delay := ((jsRound (1000 / options.fps) : ℤ) : ℚ)
        events := compositeLayers attempt assets
          ((frame : ℚ)
            / ((jsCeil (options.loopDurationMs / 1000 * options.fps) : ℤ) : ℚ)
            * options.loopDurationMs) layers })

/-- C6: the animation export renders exactly
`N = ceil(loopDurationMs / 1000 * fps)` frames, and frame `i` is composited at
timestamp `(i / N) * loopDurationMs` with the deterministic per-frame delay
`round(1000 / fps)`; no wall-clock enters the schedule (`exportGif` is a pure
function of layers, assets and options). -/
theorem c6_export_schedule (attempt : Layer → Except String Unit)
    (layers : List Layer) (assets : List (String × Asset))
    (options : GifExportOptions) (i : ℕ)
    (hfps : 0 < options.fps) (hloop : 0 < options.loopDurationMs)
    (hi : (i : ℤ) < jsCeil (options.loopDurationMs / 1000 * options.fps)) :
    ((exportGif attempt layers assets options).length : ℤ)
        = jsCeil (options.loopDurationMs / 1000 * options.fps)
    ∧ (exportGif attempt layers assets options)[i]?
        = some
            { timeMs := (i : ℚ)
                / ((jsCeil (options.loopDurationMs / 1000 * options.fps) : ℤ) : ℚ)
                * options.loopDurationMs
              delay := ((jsRound (1000 / options.fps) : ℤ) : ℚ)
              events := compositeLayers attempt assets
                ((i : ℚ)
                  / ((jsCeil (options.loopDurationMs / 1000 * options.fps) : ℤ) : ℚ)
                  * options.loopDurationMs) layers } := by
  have hN : (0 : ℤ) < jsCeil (options.loopDurationMs / 1000 * options.fps) := by
    rw [jsCeil, Int.lt_ceil]
    push_cast
    positivity
  have hiN : i < (jsCeil (options.loopDurationMs / 1000 * options.fps)).toNat := by
    omega
  constructor
  · rw [exportGif]
    simp only [List.length_map, List.length_range]
    omega
  · rw [exportGif]
    simp only [List.getElem?_map, List.getElem?_range hiN]
    rfl

def c6Options : GifExportOptions := ⟨100, 100, 2, 80, 1000, .transparent⟩

/-- Witness for C6: the concrete options `fps = 2`, `loopDurationMs = 1000`
yield `N = 2` frames with frame 1 composited at `(1 / N) * 1000`. -/
theorem c6_witness :
    (0 : ℚ) < c6Options.fps ∧ (0 : ℚ) < c6Options.loopDurationMs
    ∧ ((1 : ℕ) : ℤ) < jsCeil (c6Options.loopDurationMs / 1000 * c6Options.fps)
    ∧ ((exportGif c8Attempt [c8LayerA] c1Project.assets c6Options).length : ℤ)
        = jsCeil (c6Options.loopDurationMs / 1000 * c6Options.fps)
    ∧ (exportGif c8Attempt [c8LayerA] c1Project.assets c6Options)[1]?
        = some
            { timeMs := ((1 : ℕ) : ℚ)
                / ((jsCeil (c6Options.loopDurationMs / 1000 * c6Options.fps) : ℤ) : ℚ)
                * c6Options.loopDurationMs
              delay := ((jsRound (1000 / c6Options.fps) : ℤ) : ℚ)
              events := compositeLayers c8Attempt c1Project.assets
                (((1 : ℕ) : ℚ)
                  / ((jsCeil (c6Options.loopDurationMs / 1000 * c6Options.fps) : ℤ) : ℚ)
                  * c6Options.loopDurationMs) [c8LayerA] } := by
  have hlt : ((1 : ℕ) : ℤ) < jsCeil (c6Options.loopDurationMs / 1000 * c6Options.fps) := by
    norm_num [c6Options, jsCeil]
  have h := c6_export_schedule c8Attempt [c8LayerA] c1Project.assets c6Options 1
    (by norm_num [c6Options]) (by norm_num [c6Options]) hlt
  exact ⟨by norm_num [c6Options], by norm_num [c6Options], hlt, h.1, h.2⟩

/-! ## Claim C3: disposal handling in the GIF decode loop (`decodeGif`)

The decode canvas is modelled as its pixel content: a function from
coordinates to a colour code, 0 meaning fully transparent. Coordinates outside
the canvas are never observed. -/

def Buffer := ℕ → ℕ → ℕ

/-- One parsed frame as handed to the decode loop (gifuct `ParsedGifFrame`):
a patch bitmap in local coordinates plus its declared rectangle `dims`, the
delay and the disposal method. -/
structure ParsedFrame where
  patch : ℕ → ℕ → ℕ
  left : ℕ
  top : ℕ
  width : ℕ
  height : ℕ
  delay : ℚ
  disposalType : ℕ

instance : Inhabited ParsedFrame :=
  ⟨⟨fun _ _ => 0, 0, 0, 0, 0, 0, 0⟩⟩

/-- `ctx.putImageData(imageData, left, top)`: the destination rectangle is
replaced by the patch (raw copy, no alpha blending). -/
def putImageData (f : ParsedFrame) (buf : Buffer) : Buffer := fun x y =>
  if f.left ≤ x ∧ x < f.left + f.width ∧ f.top ≤ y ∧ y < f.top + f.height
  then f.patch (x - f.left) (y - f.top)
  else buf x y

/-- `ctx.clearRect(l, t, w, h)`: the rectangle becomes fully transparent. -/
def clearRect (l t w h : ℕ) (buf : Buffer) : Buffer := fun x y =>
  if l ≤ x ∧ x < l + w ∧ t ≤ y ∧ y < t + h then 0 else buf x y

/-- The decode loop's mutable state: the persistent composition canvas and the
`previousImageData` snapshot (null before the first disposal-3 frame). -/
structure DecodeState where
  buf : Buffer
  previousImageData : Option Buffer

/-- The disposal step at the top of iteration `i > 0`, keyed on the previous
frame: disposal 2 ("restore to background") clears the whole canvas
(`clearRect(0, 0, width, height)`); disposal 3 ("restore to previous") puts
back the snapshot when one exists; anything else leaves the canvas alone. -/
def applyDisposal (canvasW canvasH : ℕ) (prevFrame : ParsedFrame)
    (s : DecodeState) : DecodeState :=
  if prevFrame.disposalType = 2 then
    { s with buf := clearRect 0 0 canvasW canvasH s.buf }
  else if prevFrame.disposalType = 3 then
    match s.previousImageData with
    | some img => { s with buf := img }
    | none => s
  else s

/-- The body of one iteration after disposal: snapshot the canvas when the
current frame's disposal is 3 (`getImageData` before drawing), then draw the
frame patch at its declared offset. -/
def drawFrame (f : ParsedFrame) (s : DecodeState) : DecodeState :=
  let s1 := if f.disposalType = 3 then { s with previousImageData := some s.buf } else s
  { s1 with buf := putImageData f s1.buf }

/-- The decode state after iterations `0 .. i` of the loop over `frames`; the
bitmap recorded for frame `i` (`createImageBitmap(canvas)`) is
`(decodeStateAfter w h frames i).buf`. -/
def decodeStateAfter (canvasW canvasH : ℕ) (frames : List ParsedFrame) :
    ℕ → DecodeState
  | 0 => drawFrame (frames.getD 0 default) ⟨fun _ _ => 0, none⟩
  | i + 1 =>
    drawFrame (frames.getD (i + 1) default)
      (applyDisposal canvasW canvasH (frames.getD i default)
        (decodeStateAfter canvasW canvasH frames i))

/-- The composition canvas at the start of iteration `i`, after disposal
handling, just before frame `i` is drawn. -/
def preDrawBuffer (canvasW canvasH : ℕ) (frames : List ParsedFrame) :
    ℕ → Buffer
  | 0 => fun _ _ => 0
  | i + 1 =>
    (applyDisposal canvasW canvasH (frames.getD i default)
      (decodeStateAfter canvasW canvasH frames i)).buf

def c3Frame0 : ParsedFrame := ⟨fun _ _ => 7, 1, 0, 1, 1, 100, 1⟩
def c3Frame1 : ParsedFrame := ⟨fun _ _ => 9, 0, 0, 1, 1, 100, 2⟩
def c3Frame2 : ParsedFrame := ⟨fun _ _ => 5, 0, 0, 1, 1, 100, 1⟩

def c3Frames : List ParsedFrame := [c3Frame0, c3Frame1, c3Frame2]

/-- C3 counterexample: on a 2×1 canvas, frame 0 paints pixel (1,0), frame 1
paints pixel (0,0) and asks "restore to background". The claim says only frame
1's declared 1×1 rectangle is cleared, which would leave pixel (1,0) holding
frame 0's colour; the code clears the whole canvas, so pixel (1,0) is
transparent before frame 2 is drawn. -/
theorem c3_counterexample :
    ¬ (∀ x y, x < 2 → y < 1 →
        preDrawBuffer 2 1 c3Frames 2 x y
          = clearRect c3Frame1.left c3Frame1.top c3Frame1.width c3Frame1.height
              (decodeStateAfter 2 1 c3Frames 1).buf x y) := by
  intro hclaim
  have h := hclaim 1 0 (by decide) (by decide)
  have hcode : preDrawBuffer 2 1 c3Frames 2 1 0 = 0 := by decide
  have hspec : clearRect c3Frame1.left c3Frame1.top c3Frame1.width c3Frame1.height
      (decodeStateAfter 2 1 c3Frames 1).buf 1 0 = 7 := by decide
  rw [hcode, hspec] at h
  exact absurd h (by decide)

/-- C3 (amended): after a frame with disposal "restore to background" is
rendered, the decode loop clears the ENTIRE canvas
(`clearRect(0, 0, width, height)`) — not just that frame's declared
rectangle — before the next frame is drawn; for "restore to previous" the
canvas is snapshotted before the frame is drawn and that snapshot is restored
before the next frame is drawn (so the pre-draw canvas of frame `i + 1` equals
the pre-draw canvas of frame `i`). -/
theorem c3_disposal_semantics (canvasW canvasH : ℕ) (frames : List ParsedFrame)
    (i : ℕ) (hi : i < frames.length) :
    ((frames.getD i default).disposalType = 2 →
      preDrawBuffer canvasW canvasH frames (i + 1)
        = clearRect 0 0 canvasW canvasH (decodeStateAfter canvasW canvasH frames i).buf)
    ∧ ((frames.getD i default).disposalType = 3 →
      (decodeStateAfter canvasW canvasH frames i).previousImageData
          = some (preDrawBuffer canvasW canvasH frames i)
        ∧ preDrawBuffer canvasW canvasH frames (i + 1)
            = preDrawBuffer canvasW canvasH frames i) := by
  constructor
  · intro h2
    rw [preDrawBuffer, applyDisposal, if_pos h2]
  · intro h3
    have hnot2 : (frames.getD i default).disposalType ≠ 2 := by rw [h3]; decide
    have hsnap : (decodeStateAfter canvasW canvasH frames i).previousImageData
        = some (preDrawBuffer canvasW canvasH frames i) := by
      cases i with
      | zero =>
        rw [decodeStateAfter, drawFrame, preDrawBuffer]
        rw [if_pos h3]
      | succ j =>
        rw [decodeStateAfter, drawFrame, preDrawBuffer]
        rw [if_pos h3]
    refine ⟨hsnap, ?_⟩
    rw [preDrawBuffer, applyDisposal, if_neg hnot2, if_pos h3, hsnap]

def c3dFrame0 : ParsedFrame := ⟨fun _ _ => 7, 1, 0, 1, 1, 100, 3⟩

def c3dFrames : List ParsedFrame := [c3dFrame0, c3Frame2]

/-- Witness for C3's amended theorem: the "restore to background" clause on
`c3Frames` at frame 1, and the "restore to previous" clause on a two-frame
list whose first frame has disposal 3. -/
theorem c3_witness :
    (c3Frames.getD 1 default).disposalType = 2
    ∧ preDrawBuffer 2 1 c3Frames 2
        = clearRect 0 0 2 1 (decodeStateAfter 2 1 c3Frames 1).buf
    ∧ (c3dFrames.getD 0 default).disposalType = 3
    ∧ (decodeStateAfter 2 1 c3dFrames 0).previousImageData
        = some (preDrawBuffer 2 1 c3dFrames 0)
    ∧ preDrawBuffer 2 1 c3dFrames 1 = preDrawBuffer 2 1 c3dFrames 0 := by
  have hbg := (c3_disposal_semantics 2 1 c3Frames 1 (by decide)).1 rfl
  have hprev := (c3_disposal_semantics 2 1 c3dFrames 0 (by decide)).2 rfl
  exact ⟨rfl, hbg, rfl, hprev.1, hprev.2⟩

end Burnit
